import Mathlib

/-!
Verification of the Skill Matching & Classification Engine
(`backend/nlp_service/skills_matcher.py`, `custom_keywords_loader.py`).

Python strings are modelled as lists of Unicode code points (`PyStr`),
with ASCII models of `str.lower`, `str.upper`, `str.strip`, `str.title`,
`str.capitalize` and `str.isupper`.  Floats are modelled as rationals.
External collaborators (the spaCy tokenizer, the sentence-transformers
embedding model, the ontology JSON and the loaded CSV vocabulary) are
parameters: an embedding call is an oracle returning either similarity
scores or a failure, ontology lookups are oracle functions, and the
static tables of the source are reproduced literally.
-/

/-- A Python string as its list of code points. -/
abbrev PyStr : Type := List Nat

/-- Code points of a Lean string literal, used to write concrete examples. -/
def strToCodes (s : String) : PyStr := s.toList.map Char.toNat

/-- ASCII model of Python `str.lower` on one code point. -/
def pyLowerC (c : Nat) : Nat := if 65 ≤ c ∧ c ≤ 90 then c + 32 else c

/-- ASCII model of Python `str.upper` on one code point. -/
def pyUpperC (c : Nat) : Nat := if 97 ≤ c ∧ c ≤ 122 then c - 32 else c

/-- Is the code point one of the characters matched by `[a-z0-9]`? -/
def isLowerAlnum (c : Nat) : Bool := (97 ≤ c ∧ c ≤ 122) ∨ (48 ≤ c ∧ c ≤ 57)

/-- Is the code point an ASCII letter or digit (any case)? -/
def isAlnumC (c : Nat) : Bool :=
  (97 ≤ c ∧ c ≤ 122) ∨ (48 ≤ c ∧ c ≤ 57) ∨ (65 ≤ c ∧ c ≤ 90)

/-- ASCII lower-case letter? (Python cased characters, lower case.) -/
def isLowerC (c : Nat) : Bool := 97 ≤ c ∧ c ≤ 122

/-- ASCII upper-case letter? -/
def isUpperC (c : Nat) : Bool := 65 ≤ c ∧ c ≤ 90

/-- Whitespace stripped by Python `str.strip` (ASCII part). -/
def isWS (c : Nat) : Bool := c = 32 ∨ c = 9 ∨ c = 10 ∨ c = 13 ∨ c = 11 ∨ c = 12

/-- Python `s.lower()`. -/
def pyLowerS (s : PyStr) : PyStr := s.map pyLowerC

/-- Python `s.upper()`. -/
def pyUpperS (s : PyStr) : PyStr := s.map pyUpperC

/-- Python `s.strip()`: drop leading and trailing whitespace. -/
def pyStripS (s : PyStr) : PyStr :=
  ((s.dropWhile isWS).reverse.dropWhile isWS).reverse

/-- Python `s.lower().strip()`, the key form used all over the matcher. -/
def lowerStrip (s : PyStr) : PyStr := pyStripS (pyLowerS s)

/-- `SkillsDatabase._normalize`: `re.sub(r'[^a-z0-9]', '', text.lower())`. -/
def pyNormalize (s : PyStr) : PyStr := (pyLowerS s).filter isLowerAlnum

/-- Python `s.capitalize()`: first character upper-cased, the rest lowered. -/
def pyCapitalizeS (s : PyStr) : PyStr :=
  match s with
  | [] => []
  | c :: rest => pyUpperC c :: pyLowerS rest

/-- One step of Python `s.title()`: upper-case a letter that starts a run of
letters, lower-case the rest (`prev` records whether the previous character
was a letter). -/
def pyTitleGo (prev : Bool) : List Nat → List Nat
  | [] => []
  | c :: rest =>
      if isLowerC c ∨ isUpperC c then
        (if prev then pyLowerC c else pyUpperC c) :: pyTitleGo true rest
      else
        c :: pyTitleGo false rest

/-- Python `s.title()` (ASCII model). -/
def pyTitleS (s : PyStr) : PyStr := pyTitleGo false s

/-- Python `s.isupper()` (ASCII model): some cased character and no
lower-case one. -/
def pyIsUpperS (s : PyStr) : Bool :=
  s.any (fun c => isUpperC c) && s.all (fun c => !isLowerC c)

/-- Python `s.replace(old, new)` for single-character `old`/`new`. -/
def pyReplaceC (old new : Nat) (s : PyStr) : PyStr :=
  s.map (fun c => if c = old then new else c)

/-- Python `sep.join(s)` for a one-character separator joined over the
characters of `s`, as in `'.'.join(base)`. -/
def pyJoinC (sep : Nat) (s : PyStr) : PyStr :=
  match s with
  | [] => []
  | [c] => [c]
  | c1 :: c2 :: rest => c1 :: sep :: pyJoinC sep (c2 :: rest)

/-- The number of words of Python `s.split()`: maximal runs of
non-whitespace characters. -/
def wordCountGo (inWord : Bool) : List Nat → Nat
  | [] => 0
  | c :: rest =>
      if isWS c then wordCountGo false rest
      else (if inWord then 0 else 1) + wordCountGo true rest

/-- `len(s.split())`. -/
def wordCount (s : PyStr) : Nat := wordCountGo false s

/-- Python string comparison `s <= t` (lexicographic on code points). -/
def pyStrLeB : PyStr → PyStr → Bool
  | [], _ => true
  | _ :: _, [] => false
  | a :: as_, b :: bs =>
      if a < b then true else if b < a then false else pyStrLeB as_ bs

/-- Does `b` start with `a`? -/
def pyStartsWith : PyStr → PyStr → Bool
  | [], _ => true
  | _ :: _, [] => false
  | a :: as_, b :: bs => a == b && pyStartsWith as_ bs

/-- Substring test, Python's `a in b` on strings. -/
def pySubstr (a : PyStr) (b : PyStr) : Bool :=
  match b with
  | [] => pyStartsWith a []
  | _ :: rest => pyStartsWith a b || pySubstr a rest

-- ---------------------------------------------------------------------------
-- Elementary facts about the character model
-- ---------------------------------------------------------------------------

theorem pyLowerC_idem (c : Nat) : pyLowerC (pyLowerC c) = pyLowerC c := by
  unfold pyLowerC
  split_ifs <;> omega

theorem pyLowerC_upper (c : Nat) : pyLowerC (pyUpperC c) = pyLowerC c := by
  unfold pyLowerC pyUpperC
  split_ifs <;> omega

theorem pyLowerS_idem (s : PyStr) : pyLowerS (pyLowerS s) = pyLowerS s := by
  unfold pyLowerS
  rw [List.map_map]
  exact List.map_congr_left (fun c _ => pyLowerC_idem c)

theorem pyLowerS_upper (s : PyStr) : pyLowerS (pyUpperS s) = pyLowerS s := by
  unfold pyLowerS pyUpperS
  rw [List.map_map]
  exact List.map_congr_left (fun c _ => pyLowerC_upper c)

theorem isLowerAlnum_pyLowerC_self {c : Nat} (h : isLowerAlnum c = true) :
    pyLowerC c = c := by
  unfold isLowerAlnum at h
  unfold pyLowerC
  simp only [decide_eq_true_eq] at h
  split
  · omega
  · rfl

/-- `pyNormalize` output characters are already lower-case alphanumerics. -/
theorem pyNormalize_chars {c : Nat} {s : PyStr} (h : c ∈ pyNormalize s) :
    isLowerAlnum c = true := by
  unfold pyNormalize at h
  exact (List.mem_filter.mp h).2

theorem pyNormalize_lower (s : PyStr) :
    pyNormalize (pyLowerS s) = pyNormalize s := by
  unfold pyNormalize
  rw [pyLowerS_idem]

theorem pyNormalize_upper (s : PyStr) :
    pyNormalize (pyUpperS s) = pyNormalize s := by
  unfold pyNormalize
  rw [pyLowerS_upper]

theorem pyNormalize_idem (s : PyStr) :
    pyNormalize (pyNormalize s) = pyNormalize s := by
  have hlow : pyLowerS (pyNormalize s) = pyNormalize s := by
    unfold pyLowerS
    rw [List.map_congr_left
      (fun c hc => isLowerAlnum_pyLowerC_self (pyNormalize_chars hc))]
    exact List.map_id (pyNormalize s)
  show (pyLowerS (pyNormalize s)).filter isLowerAlnum = pyNormalize s
  rw [hlow]
  apply List.filter_eq_self.mpr
  intro c hc
  exact pyNormalize_chars hc
/-- The `core_languages` set of `get_skill_weight` (weight 3). -/
def coreLanguages : List PyStr :=
  [
    strToCodes "python",
    strToCodes "java",
    strToCodes "javascript",
    strToCodes "typescript",
    strToCodes "c++",
    strToCodes "cpp",
    strToCodes "csharp",
    strToCodes "c#",
    strToCodes "kotlin",
    strToCodes "swift",
    strToCodes "go",
    strToCodes "golang",
    strToCodes "rust",
    strToCodes "scala",
    strToCodes "ruby",
    strToCodes "php",
    strToCodes "r",
    strToCodes "matlab",
    strToCodes "sql",
    strToCodes "html",
    strToCodes "css"
  ]

/-- The `major_frameworks` set of `get_skill_weight` (weight 2). -/
def majorFrameworks : List PyStr :=
  [
    strToCodes "react",
    strToCodes "angular",
    strToCodes "vue",
    strToCodes "node",
    strToCodes "node.js",
    strToCodes "spring",
    strToCodes "spring boot",
    strToCodes "django",
    strToCodes "flask",
    strToCodes "express",
    strToCodes "next.js",
    strToCodes "nuxt",
    strToCodes "svelte",
    strToCodes "laravel",
    strToCodes "symfony",
    strToCodes "rails",
    strToCodes "asp.net",
    strToCodes "dotnet",
    strToCodes ".net",
    strToCodes "hibernate",
    strToCodes "jpa",
    strToCodes "junit",
    strToCodes "jest",
    strToCodes "mocha",
    strToCodes "cypress",
    strToCodes "tensorflow",
    strToCodes "pytorch",
    strToCodes "keras",
    strToCodes "scikit-learn",
    strToCodes "pandas",
    strToCodes "numpy"
  ]

/-- The `tools_platforms` set of `get_skill_weight` (weight 1). -/
def toolsPlatforms : List PyStr :=
  [
    strToCodes "docker",
    strToCodes "kubernetes",
    strToCodes "k8s",
    strToCodes "terraform",
    strToCodes "ansible",
    strToCodes "jenkins",
    strToCodes "git",
    strToCodes "github",
    strToCodes "gitlab",
    strToCodes "jira",
    strToCodes "confluence",
    strToCodes "slack",
    strToCodes "mysql",
    strToCodes "postgresql",
    strToCodes "mongodb",
    strToCodes "redis",
    strToCodes "elasticsearch",
    strToCodes "aws",
    strToCodes "azure",
    strToCodes "gcp",
    strToCodes "google cloud",
    strToCodes "heroku",
    strToCodes "vercel"
  ]

/-- The `CANONICAL_MAP` alias table (surface form, canonical form). -/
def CANONICAL_MAP : List (PyStr × PyStr) :=
  [
    (strToCodes "node.js", strToCodes "node"),
    (strToCodes "nodejs", strToCodes "node"),
    (strToCodes "node js", strToCodes "node"),
    (strToCodes "javascript", strToCodes "javascript"),
    (strToCodes "js", strToCodes "javascript"),
    (strToCodes "ecmascript", strToCodes "javascript"),
    (strToCodes "typescript", strToCodes "typescript"),
    (strToCodes "ts", strToCodes "typescript"),
    (strToCodes "python", strToCodes "python"),
    (strToCodes "py", strToCodes "python"),
    (strToCodes "python3", strToCodes "python"),
    (strToCodes "python 3", strToCodes "python"),
    (strToCodes "java", strToCodes "java"),
    (strToCodes "java se", strToCodes "java"),
    (strToCodes "java ee", strToCodes "java"),
    (strToCodes "c#", strToCodes "csharp"),
    (strToCodes "c sharp", strToCodes "csharp"),
    (strToCodes "csharp", strToCodes "csharp"),
    (strToCodes "c++", strToCodes "cpp"),
    (strToCodes "c plus plus", strToCodes "cpp"),
    (strToCodes "cpp", strToCodes "cpp"),
    (strToCodes ".net", strToCodes "dotnet"),
    (strToCodes "dotnet", strToCodes "dotnet"),
    (strToCodes ".net core", strToCodes "dotnet"),
    (strToCodes "asp.net", strToCodes "aspnet"),
    (strToCodes "aspnet", strToCodes "aspnet"),
    (strToCodes "react", strToCodes "react"),
    (strToCodes "react.js", strToCodes "react"),
    (strToCodes "reactjs", strToCodes "react"),
    (strToCodes "vue", strToCodes "vue"),
    (strToCodes "vue.js", strToCodes "vue"),
    (strToCodes "vuejs", strToCodes "vue"),
    (strToCodes "angular", strToCodes "angular"),
    (strToCodes "angularjs", strToCodes "angular"),
    (strToCodes "angular.js", strToCodes "angular"),
    (strToCodes "sql", strToCodes "sql"),
    (strToCodes "structured query language", strToCodes "sql"),
    (strToCodes "aws", strToCodes "aws"),
    (strToCodes "amazon web services", strToCodes "aws"),
    (strToCodes "docker", strToCodes "docker"),
    (strToCodes "docker container", strToCodes "docker"),
    (strToCodes "kubernetes", strToCodes "kubernetes"),
    (strToCodes "k8s", strToCodes "kubernetes"),
    (strToCodes "kube", strToCodes "kubernetes"),
    (strToCodes "git", strToCodes "git"),
    (strToCodes "git version control", strToCodes "git"),
    (strToCodes "rest", strToCodes "rest api"),
    (strToCodes "rest api", strToCodes "rest api"),
    (strToCodes "restful", strToCodes "rest api"),
    (strToCodes "restful api", strToCodes "rest api"),
    (strToCodes "graphql", strToCodes "graphql"),
    (strToCodes "graph ql", strToCodes "graphql"),
    (strToCodes "html", strToCodes "html"),
    (strToCodes "html5", strToCodes "html"),
    (strToCodes "css", strToCodes "css"),
    (strToCodes "css3", strToCodes "css"),
    (strToCodes "machine learning", strToCodes "machine learning"),
    (strToCodes "ml", strToCodes "machine learning"),
    (strToCodes "artificial intelligence", strToCodes "artificial intelligence"),
    (strToCodes "ai", strToCodes "artificial intelligence"),
    (strToCodes "data science", strToCodes "data science"),
    (strToCodes "data analytics", strToCodes "data analytics"),
    (strToCodes "data analysis", strToCodes "data analysis")
  ]

/-- The static `SKILL_HIERARCHY` table (parent, list of children). -/
def SKILL_HIERARCHY : List (PyStr × List PyStr) :=
  [
    (strToCodes "spring boot",
      [strToCodes "spring", strToCodes "boot"]),
    (strToCodes "spring framework",
      [strToCodes "spring"]),
    (strToCodes "react.js",
      [strToCodes "react"]),
    (strToCodes "react native",
      [strToCodes "react"]),
    (strToCodes "vue.js",
      [strToCodes "vue"]),
    (strToCodes "angular.js",
      [strToCodes "angular"]),
    (strToCodes "node.js",
      [strToCodes "node", strToCodes "nodejs"]),
    (strToCodes "next.js",
      [strToCodes "next"]),
    (strToCodes "express.js",
      [strToCodes "express"]),
    (strToCodes "relational databases",
      [strToCodes "databases", strToCodes "database"]),
    (strToCodes "nosql databases",
      [strToCodes "databases", strToCodes "database"]),
    (strToCodes "sql databases",
      [strToCodes "databases", strToCodes "database"]),
    (strToCodes "mysql database",
      [strToCodes "mysql", strToCodes "database"]),
    (strToCodes "postgresql database",
      [strToCodes "postgresql", strToCodes "postgres", strToCodes "database"]),
    (strToCodes "mongodb database",
      [strToCodes "mongodb", strToCodes "mongo", strToCodes "database"]),
    (strToCodes "aws services",
      [strToCodes "aws", strToCodes "services"]),
    (strToCodes "azure services",
      [strToCodes "azure", strToCodes "services"]),
    (strToCodes "gcp services",
      [strToCodes "gcp", strToCodes "google cloud", strToCodes "services"]),
    (strToCodes "rest api",
      [strToCodes "rest", strToCodes "api", strToCodes "apis"]),
    (strToCodes "graphql api",
      [strToCodes "graphql", strToCodes "api", strToCodes "apis"]),
    (strToCodes "restful api",
      [strToCodes "rest", strToCodes "restful", strToCodes "api", strToCodes "apis"]),
    (strToCodes "web api",
      [strToCodes "web", strToCodes "api", strToCodes "apis"]),
    (strToCodes "docker containers",
      [strToCodes "docker", strToCodes "containers", strToCodes "container"]),
    (strToCodes "kubernetes cluster",
      [strToCodes "kubernetes", strToCodes "k8s", strToCodes "cluster"]),
    (strToCodes "git version control",
      [strToCodes "git", strToCodes "version control"]),
    (strToCodes "ci/cd pipeline",
      [strToCodes "ci/cd", strToCodes "cicd", strToCodes "pipeline"]),
    (strToCodes "javascript programming",
      [strToCodes "javascript", strToCodes "js", strToCodes "programming"]),
    (strToCodes "python programming",
      [strToCodes "python", strToCodes "py", strToCodes "programming"]),
    (strToCodes "java programming",
      [strToCodes "java", strToCodes "programming"])
  ]

-- ---------------------------------------------------------------------------
-- `get_skill_weight` and `SkillOntology.get_weight`
-- ---------------------------------------------------------------------------

/-- The containment loops of `get_skill_weight`: some table entry is a
substring of the skill or the skill is a substring of the entry. -/
def relatedTo (table : List PyStr) (l : PyStr) : Bool :=
  table.any (fun t => pySubstr t l || pySubstr l t)

/-- `get_skill_weight`: exact membership in the three static tables first,
then the substring-containment fallbacks, else 0. -/
def getSkillWeight (skill : PyStr) : Nat :=
  let l := lowerStrip skill
  if l ∈ coreLanguages then 3
  else if l ∈ majorFrameworks then 2
  else if l ∈ toolsPlatforms then 1
  else if relatedTo coreLanguages l then 3
  else if relatedTo majorFrameworks l then 2
  else if relatedTo toolsPlatforms l then 1
  else 0

/-- `SkillOntology.get_weight`: the ontology entry's weight when the lookup
(keyed by the lower-cased, stripped name) has one, else `get_skill_weight`.
The loaded ontology JSON is external data, modelled as the oracle `ow`. -/
def ontGetWeight (ow : PyStr → Option ℚ) (skill : PyStr) : ℚ :=
  match ow (lowerStrip skill) with
  | some w => w
  | none => (getSkillWeight skill : ℚ)

/-- C4, counterexample: "spark" is absent from the ontology and from all
three static tables, yet its weight is 3 (the substring fallback fires on
the core language "r"), where the claim requires 0. -/
theorem c4_weight_counterexample :
    ontGetWeight (fun _ => none) (strToCodes "spark") = 3
      ∧ strToCodes "spark" ∉ coreLanguages
      ∧ strToCodes "spark" ∉ majorFrameworks
      ∧ strToCodes "spark" ∉ toolsPlatforms := by
  refine ⟨by decide, by decide, by decide, by decide⟩

/-- C4 (amended): for a surface absent from the ontology, the weight is 3
exactly when the lower-cased stripped surface is in the core-language table,
or misses all three tables exactly but is substring-related to a core entry;
2 exactly when it is in the framework table, or misses core exactly and all
exact checks below, is unrelated to core, and is substring-related to a
framework entry; 1 likewise for the tools table; and 0 exactly when all six
checks fail. -/
theorem c4_weight_amended (ow : PyStr → Option ℚ) (s : PyStr)
    (h : ow (lowerStrip s) = none) :
    (ontGetWeight ow s = 3 ↔
      (lowerStrip s ∈ coreLanguages ∨
        (lowerStrip s ∉ majorFrameworks ∧ lowerStrip s ∉ toolsPlatforms ∧
          relatedTo coreLanguages (lowerStrip s) = true)))
    ∧ (ontGetWeight ow s = 2 ↔
      (lowerStrip s ∉ coreLanguages ∧
        (lowerStrip s ∈ majorFrameworks ∨
          (lowerStrip s ∉ toolsPlatforms ∧
            relatedTo coreLanguages (lowerStrip s) = false ∧
            relatedTo majorFrameworks (lowerStrip s) = true))))
    ∧ (ontGetWeight ow s = 1 ↔
      (lowerStrip s ∉ coreLanguages ∧ lowerStrip s ∉ majorFrameworks ∧
        (lowerStrip s ∈ toolsPlatforms ∨
          (relatedTo coreLanguages (lowerStrip s) = false ∧
            relatedTo majorFrameworks (lowerStrip s) = false ∧
            relatedTo toolsPlatforms (lowerStrip s) = true))))
    ∧ (ontGetWeight ow s = 0 ↔
      (lowerStrip s ∉ coreLanguages ∧ lowerStrip s ∉ majorFrameworks ∧
        lowerStrip s ∉ toolsPlatforms ∧
        relatedTo coreLanguages (lowerStrip s) = false ∧
        relatedTo majorFrameworks (lowerStrip s) = false ∧
        relatedTo toolsPlatforms (lowerStrip s) = false)) := by
  have key : ontGetWeight ow s = ((getSkillWeight s : Nat) : ℚ) := by
    unfold ontGetWeight
    rw [h]
  rw [key]
  unfold getSkillWeight
  dsimp only
  split_ifs with h1 h2 h3 h4 h5 h6 <;> norm_num <;>
    (try simp only [Bool.not_eq_true] at *) <;> simp_all

/-- C4 (amended), witness: evaluated at "spark" with an empty ontology. -/
theorem c4_weight_amended_witness :
    (fun _ => (none : Option ℚ)) (lowerStrip (strToCodes "spark")) = none
      ∧ (ontGetWeight (fun _ => none) (strToCodes "spark") = 3 ↔
        (lowerStrip (strToCodes "spark") ∈ coreLanguages ∨
          (lowerStrip (strToCodes "spark") ∉ majorFrameworks ∧
            lowerStrip (strToCodes "spark") ∉ toolsPlatforms ∧
            relatedTo coreLanguages (lowerStrip (strToCodes "spark")) = true))) :=
  ⟨rfl, (c4_weight_amended (fun _ => none) (strToCodes "spark") rfl).1⟩

-- ---------------------------------------------------------------------------
-- Normalization (`SkillsDatabase._normalize`) — claim C9
-- ---------------------------------------------------------------------------

theorem isLowerAlnum_pyLowerC (c : Nat) :
    isLowerAlnum (pyLowerC c) = isAlnumC c := by
  unfold isLowerAlnum isAlnumC pyLowerC
  split_ifs <;> simp only [decide_eq_decide] <;> omega

/-- `pyNormalize` is the lower-casing of the alphanumeric subsequence. -/
theorem pyNormalize_eq_lower_filter (s : PyStr) :
    pyNormalize s = pyLowerS (s.filter isAlnumC) := by
  unfold pyNormalize pyLowerS
  rw [List.filter_map]
  congr 1
  apply List.filter_congr
  intro c _
  exact isLowerAlnum_pyLowerC c

/-- C9: the normalization function is idempotent; strings that agree after
lower-casing normalize identically (case-insensitivity); strings whose
alphanumeric subsequences agree normalize identically (insensitivity to
non-alphanumeric characters); and concretely
`normalize("C++.") = normalize("c++")`. -/
theorem c9_normalize_props :
    (∀ s : PyStr, pyNormalize (pyNormalize s) = pyNormalize s)
    ∧ (∀ s t : PyStr, pyLowerS s = pyLowerS t → pyNormalize s = pyNormalize t)
    ∧ (∀ s t : PyStr,
        s.filter isAlnumC = t.filter isAlnumC → pyNormalize s = pyNormalize t)
    ∧ pyNormalize (strToCodes "C++.") = pyNormalize (strToCodes "c++") := by
  refine ⟨pyNormalize_idem, ?_, ?_, by decide⟩
  · intro s t h
    rw [← pyNormalize_lower s, ← pyNormalize_lower t, h]
  · intro s t h
    rw [pyNormalize_eq_lower_filter, pyNormalize_eq_lower_filter, h]

/-- C9, witness: the conjuncts with hypotheses applied at concrete strings
("PyThOn" vs "python", and "C++." vs "c++" which differ only in
non-alphanumeric characters and case of the alphanumeric part). -/
theorem c9_normalize_props_witness :
    pyNormalize (strToCodes "PyThOn") = pyNormalize (strToCodes "python")
      ∧ pyNormalize (strToCodes "C 1.") = pyNormalize (strToCodes "C-1") :=
  ⟨c9_normalize_props.2.1 (strToCodes "PyThOn") (strToCodes "python")
      (by decide),
    c9_normalize_props.2.2.1 (strToCodes "C 1.") (strToCodes "C-1")
      (by decide)⟩

-- ---------------------------------------------------------------------------
-- Frequency boost — claim C7
-- ---------------------------------------------------------------------------

/-- `frequency_boost = min((frequency - 1) * 0.5, 2.0)` from
`extract_skills_with_phrasematcher`. -/
def frequencyBoost (frequency : Nat) : ℚ :=
  min (((frequency - 1 : Nat) : ℚ) * (1/2)) 2

/-- `boosted_weight = float(weight) + frequency_boost`. -/
def boostedWeight (weight : ℚ) (frequency : Nat) : ℚ :=
  weight + frequencyBoost frequency

/-- C7: for every base weight `w` and frequency `f ≥ 1` the boosted weight
equals `w + min((f − 1) × 0.5, 2.0)`; it is non-decreasing in the frequency,
exceeds `w` by at most 2, and base weight 3 with frequency 3 gives 4. -/
theorem c7_frequency_boost (w : ℚ) (f g : Nat) (hf : 1 ≤ f) (hfg : f ≤ g) :
    boostedWeight w f = w + min (((f : ℚ) - 1) * (1/2)) 2
    ∧ boostedWeight w f ≤ boostedWeight w g
    ∧ boostedWeight w f - w ≤ 2
    ∧ boostedWeight 3 3 = 4 := by
  refine ⟨?_, ?_, ?_, by norm_num [boostedWeight, frequencyBoost]⟩
  · unfold boostedWeight frequencyBoost
    congr 2
    push_cast [Nat.cast_sub hf]
    ring
  · unfold boostedWeight frequencyBoost
    apply add_le_add_left
    apply min_le_min _ le_rfl
    apply mul_le_mul_of_nonneg_right _ (by norm_num)
    exact_mod_cast Nat.sub_le_sub_right hfg 1
  · unfold boostedWeight frequencyBoost
    have := min_le_right (((f - 1 : Nat) : ℚ) * (1/2)) 2
    linarith

/-- C7, witness: applied at `w = 3`, `f = 1`, `g = 3`. -/
theorem c7_frequency_boost_witness :
    (1 ≤ 1 ∧ 1 ≤ 3)
      ∧ boostedWeight 3 1 = 3 + min (((1 : ℚ) - 1) * (1/2)) 2 :=
  ⟨⟨le_refl 1, by norm_num⟩,
    (c7_frequency_boost 3 1 3 (le_refl 1) (by norm_num)).1⟩

-- ---------------------------------------------------------------------------
-- Semantic classifier (`SkillClassifier`)
-- ---------------------------------------------------------------------------

/-- The three maximal cosine similarities computed for a phrase:
against the Important-Tech, Less-Important-Tech and Non-Tech example sets. -/
structure Sims where
  imp : ℚ
  less : ℚ
  non : ℚ
deriving DecidableEq

/-- The classifier's three-way category. -/
inductive Tier where
  | important
  | lessImportant
  | nonTechnical
deriving DecidableEq

/-- The verdict/category computation of `is_technical_skill` (after the
similarities are in hand): technical iff the best confidence margin beats the
threshold and the best tech similarity beats `min_tech_similarity = 0.3`;
the category is `IMPORTANT_TECH` iff the Important similarity is strictly
larger than the Less-Important one. -/
def classifySims (s : Sims) (threshold : ℚ) : Bool × Tier :=
  let maxTechSim := max s.imp s.less
  let maxConfidence := max (s.imp - s.non) (s.less - s.non)
  let minTechSimilarity : ℚ := 3/10
  if maxConfidence > threshold ∧ maxTechSim > minTechSimilarity then
    (true, if s.imp > s.less then Tier.important else Tier.lessImportant)
  else
    (false, Tier.nonTechnical)

/-- Outcome of one call to the embedding provider: similarities, a broken
pipe (`BrokenPipeError` / `OSError` errno 32), or any other exception. -/
inductive EncRes (α : Type) where
  | ok (val : α)
  | brokenPipe
  | err

/-- The state of a `SkillClassifier`: availability flags for the model and
the cached example-set embeddings, and the embedding provider as oracles.
`encOne`/`encBatch` give the three-way similarities of the main path,
`encOneC`/`encBatchC` the (tech, non-tech) similarities of the combined
fallback path. -/
structure ClassifierSt where
  available : Bool
  hasModel : Bool
  hasImp : Bool
  hasLess : Bool
  hasNon : Bool
  hasCombined : Bool
  encOne : PyStr → EncRes Sims
  encOneC : PyStr → EncRes (ℚ × ℚ)
  encBatch : List PyStr → EncRes (PyStr → Sims)
  encBatchC : List PyStr → EncRes (PyStr → ℚ × ℚ)

/-- `_classify_with_combined_embeddings`: any exception gives `True`. -/
def classifyCombinedOne (st : ClassifierSt) (skill : PyStr)
    (threshold : ℚ) : Bool :=
  match st.encOneC skill with
  | EncRes.ok tn => decide (tn.1 - tn.2 > threshold ∧ tn.1 > 3/10)
  | _ => true

/-- `SkillClassifier.is_technical_skill`: `True` when the classifier or the
model is unavailable; the combined fallback when the three example-set
embeddings are not all present; otherwise encode and classify, returning
`True` on a broken pipe (inner handler) or any other exception (outer
handler). -/
def isTechnicalSkill (st : ClassifierSt) (skill : PyStr)
    (threshold : ℚ) : Bool :=
  if ¬(st.available = true ∧ st.hasModel = true) then true
  else if ¬(st.hasImp = true ∧ st.hasLess = true ∧ st.hasNon = true) then
    if st.hasCombined = true ∧ st.hasNon = true then
      classifyCombinedOne st skill threshold
    else true
  else
    match st.encOne skill with
    | EncRes.ok s => (classifySims s threshold).1
    | _ => true

/-- The batches `skills[i:i+batch_size]` of the `range(0, len, batch_size)`
loop (fuel-driven; the fuel is the list length). -/
def chunksGo (bs : Nat) : Nat → List α → List (List α)
  | _, [] => []
  | 0, _ :: _ => []
  | Nat.succ fuel, c :: rest =>
      (c :: rest).take bs :: chunksGo bs fuel ((c :: rest).drop bs)

/-- All batches of size `bs` of a list. -/
def chunksOf (bs : Nat) (l : List α) : List (List α) := chunksGo bs l.length l

/-- The batch loop of `batch_classify_skills`: per batch, encode; on a broken
pipe keep the whole batch and continue; any other exception propagates to the
outer handler (`Except.error`); otherwise keep the phrases whose verdict is
technical. -/
def batchGo (st : ClassifierSt) (threshold : ℚ) :
    List (List PyStr) → Except Unit (List PyStr)
  | [] => Except.ok []
  | c :: cs =>
      match st.encBatch c with
      | EncRes.ok f =>
          match batchGo st threshold cs with
          | Except.ok rest =>
              Except.ok
                ((c.filter fun p => (classifySims (f p) threshold).1) ++ rest)
          | Except.error e => Except.error e
      | EncRes.brokenPipe =>
          match batchGo st threshold cs with
          | Except.ok rest => Except.ok (c ++ rest)
          | Except.error e => Except.error e
      | EncRes.err => Except.error ()

/-- The batch loop of `_batch_classify_with_combined_embeddings`: no inner
broken-pipe handler, every failure reaches the outer handler. -/
def batchGoC (st : ClassifierSt) (threshold : ℚ) :
    List (List PyStr) → Except Unit (List PyStr)
  | [] => Except.ok []
  | c :: cs =>
      match st.encBatchC c with
      | EncRes.ok f =>
          match batchGoC st threshold cs with
          | Except.ok rest =>
              Except.ok
                ((c.filter fun p =>
                  decide ((f p).1 - (f p).2 > threshold ∧ (f p).1 > 3/10))
                  ++ rest)
          | Except.error e => Except.error e
      | _ => Except.error ()

/-- The outer `except` handler of the batch classifiers: the loop's result,
or all of `skills` when an exception escaped the loop. -/
def orAllSkills (r : Except Unit (List PyStr)) (skills : List PyStr) :
    List PyStr :=
  match r with
  | Except.ok l => l
  | Except.error _ => skills

/-- `_batch_classify_with_combined_embeddings`: all skills when unavailable,
else the batch loop, falling back to all skills on any exception. -/
def batchClassifyCombined (st : ClassifierSt) (skills : List PyStr)
    (threshold : ℚ) (bs : Nat) : List PyStr :=
  if ¬(st.available = true ∧ st.hasModel = true) then skills
  else orAllSkills (batchGoC st threshold (chunksOf bs skills)) skills

/-- `SkillClassifier.batch_classify_skills`: all skills when the classifier
or model is unavailable; the combined fallback when the three example-set
embeddings are not all present; else the batch loop, returning all skills
when an exception reaches the outer handler. -/
def batchClassify (st : ClassifierSt) (skills : List PyStr)
    (threshold : ℚ) (bs : Nat) : List PyStr :=
  if ¬(st.available = true ∧ st.hasModel = true) then skills
  else if ¬(st.hasImp = true ∧ st.hasLess = true ∧ st.hasNon = true) then
    if st.hasCombined = true ∧ st.hasNon = true then
      batchClassifyCombined st skills threshold bs
    else skills
  else orAllSkills (batchGo st threshold (chunksOf bs skills)) skills

theorem chunksGo_join {α : Type} (bs : Nat) (hbs : 0 < bs) :
    ∀ (fuel : Nat) (l : List α), l.length ≤ fuel →
      (chunksGo bs fuel l).flatten = l := by
  intro fuel
  induction fuel with
  | zero =>
      intro l hl
      match l with
      | [] => rfl
      | _ :: _ => simp at hl
  | succ fuel ih =>
      intro l hl
      match l with
      | [] => rfl
      | c :: rest =>
          show ((c :: rest).take bs :: _).flatten = c :: rest
          rw [List.flatten_cons, ih ((c :: rest).drop bs) (by
            rw [List.length_drop, List.length_cons]
            rw [List.length_cons] at hl
            omega)]
          exact List.take_append_drop bs (c :: rest)

theorem chunksOf_join {α : Type} (bs : Nat) (hbs : 0 < bs) (l : List α) :
    (chunksOf bs l).flatten = l :=
  chunksGo_join bs hbs l.length l le_rfl

/-- When every batch encode succeeds with the similarity function `f`, the
batch loop keeps exactly the technically-classified phrases of the batches. -/
theorem batchGo_all_ok (st : ClassifierSt) (threshold : ℚ)
    (f : PyStr → Sims) (h : ∀ c, st.encBatch c = EncRes.ok f) :
    ∀ cs : List (List PyStr),
      batchGo st threshold cs =
        Except.ok
          (cs.flatten.filter fun p => (classifySims (f p) threshold).1) := by
  intro cs
  induction cs with
  | nil => rfl
  | cons c rest ih =>
      show (match st.encBatch c with
        | EncRes.ok f => _
        | EncRes.brokenPipe => _
        | EncRes.err => _) = _
      rw [h c]
      simp only [ih, List.flatten_cons, List.filter_append]

/-- The combined-path analogue of `batchGo_all_ok`. -/
theorem batchGoC_all_ok (st : ClassifierSt) (threshold : ℚ)
    (f : PyStr → ℚ × ℚ) (h : ∀ c, st.encBatchC c = EncRes.ok f) :
    ∀ cs : List (List PyStr),
      batchGoC st threshold cs =
        Except.ok
          (cs.flatten.filter fun p =>
            decide ((f p).1 - (f p).2 > threshold ∧ (f p).1 > 3/10)) := by
  intro cs
  induction cs with
  | nil => rfl
  | cons c rest ih =>
      show (match st.encBatchC c with
        | EncRes.ok f => _
        | _ => _) = _
      rw [h c]
      simp only [ih, List.flatten_cons, List.filter_append]

/-- C3: with a consistent, failure-free embedding-provider state, a phrase
of the input list is in the set returned by `batch_classify_skills` exactly
when `is_technical_skill` returns `True` for that phrase alone — in every
availability branch of the classifier. -/
theorem c3_batch_matches_single
    (st : ClassifierSt) (sims : PyStr → Sims) (simsC : PyStr → ℚ × ℚ)
    (h1 : ∀ p, st.encOne p = EncRes.ok (sims p))
    (h2 : ∀ c, st.encBatch c = EncRes.ok sims)
    (h3 : ∀ p, st.encOneC p = EncRes.ok (simsC p))
    (h4 : ∀ c, st.encBatchC c = EncRes.ok simsC)
    (skills : List PyStr) (threshold : ℚ) (bs : Nat) (hbs : 0 < bs)
    (p : PyStr) (hp : p ∈ skills) :
    p ∈ batchClassify st skills threshold bs ↔
      isTechnicalSkill st p threshold = true := by
  unfold batchClassify isTechnicalSkill
  by_cases hA : st.available = true ∧ st.hasModel = true
  · rw [if_neg (not_not_intro hA), if_neg (not_not_intro hA)]
    by_cases hB : st.hasImp = true ∧ st.hasLess = true ∧ st.hasNon = true
    · rw [if_neg (not_not_intro hB), if_neg (not_not_intro hB)]
      rw [batchGo_all_ok st threshold sims h2, chunksOf_join bs hbs, h1 p]
      show p ∈ List.filter _ skills ↔ _
      simp only [List.mem_filter]
      exact ⟨fun hm => hm.2, fun hv => ⟨hp, hv⟩⟩
    · rw [if_pos hB, if_pos hB]
      by_cases hC : st.hasCombined = true ∧ st.hasNon = true
      · rw [if_pos hC, if_pos hC]
        unfold batchClassifyCombined classifyCombinedOne
        rw [if_neg (not_not_intro hA)]
        rw [batchGoC_all_ok st threshold simsC h4, chunksOf_join bs hbs]
        rw [h3 p]
        show p ∈ List.filter _ skills ↔ _
        simp only [List.mem_filter]
        exact ⟨fun hm => hm.2, fun hv => ⟨hp, hv⟩⟩
      · rw [if_neg hC, if_neg hC]
        simp [hp]
  · rw [if_pos hA, if_pos hA]
    simp [hp]

/-- C3, witness: a fully-available classifier whose provider always returns
the same similarities, one phrase, threshold 0.15, batch size 500. -/
def stOk : ClassifierSt where
  available := true
  hasModel := true
  hasImp := true
  hasLess := true
  hasNon := true
  hasCombined := true
  encOne := fun _ => EncRes.ok ⟨1, 0, 0⟩
  encOneC := fun _ => EncRes.ok (1, 0)
  encBatch := fun _ => EncRes.ok (fun _ => ⟨1, 0, 0⟩)
  encBatchC := fun _ => EncRes.ok (fun _ => (1, 0))

theorem c3_batch_matches_single_witness :
    strToCodes "java" ∈ batchClassify stOk [strToCodes "java"] (3/20) 500 ↔
      isTechnicalSkill stOk (strToCodes "java") (3/20) = true :=
  c3_batch_matches_single stOk (fun _ => ⟨1, 0, 0⟩) (fun _ => (1, 0))
    (fun _ => rfl) (fun _ => rfl) (fun _ => rfl) (fun _ => rfl)
    [strToCodes "java"] (3/20) 500 (by norm_num)
    (strToCodes "java") (List.mem_singleton.mpr rfl)

/-- C6, counterexample: with `simImportant = simLess = 0.5`,
`simNonTech = 0` and threshold `0.15` the phrase is judged technical and
`simImportant ≥ simLess` holds (a tie), yet the assigned category is
`LESS_IMPORTANT_TECH`, not `IMPORTANT_TECH` as the claim requires. -/
theorem c6_tier_counterexample :
    classifySims ⟨1/2, 1/2, 0⟩ (3/20) = (true, Tier.lessImportant)
      ∧ ((1:ℚ)/2) ≥ ((1:ℚ)/2)
      ∧ Tier.lessImportant ≠ Tier.important := by
  refine ⟨?_, le_refl _, fun hc => Tier.noConfusion hc⟩
  simp only [classifySims, max_def]
  norm_num

/-- C6 (amended): a phrase is judged technical iff
`max(simImportant, simLess) − simNonTech > threshold` and
`max(simImportant, simLess) > 0.3`; a technical phrase gets category
`IMPORTANT_TECH` when `simImportant > simLess` **strictly** and
`LESS_IMPORTANT_TECH` otherwise (ties go to `LESS_IMPORTANT_TECH`);
a non-technical phrase gets `NON-TECH`. -/
theorem c6_tier_amended (s : Sims) (threshold : ℚ) :
    ((classifySims s threshold).1 = true ↔
      (max s.imp s.less - s.non > threshold ∧ max s.imp s.less > 3/10))
    ∧ ((classifySims s threshold).1 = true →
        (classifySims s threshold).2 =
          if s.imp > s.less then Tier.important else Tier.lessImportant)
    ∧ ((classifySims s threshold).1 = false →
        (classifySims s threshold).2 = Tier.nonTechnical)
    ∧ (s.imp = s.less → (classifySims s threshold).2 ≠ Tier.important) := by
  have hmax : max (s.imp - s.non) (s.less - s.non) = max s.imp s.less - s.non :=
    max_sub_sub_right s.imp s.less s.non
  simp only [classifySims]
  by_cases h :
      max (s.imp - s.non) (s.less - s.non) > threshold
        ∧ max s.imp s.less > 3/10
  · rw [if_pos h]
    refine ⟨⟨fun _ => ⟨hmax ▸ h.1, h.2⟩, fun _ => rfl⟩, fun _ => rfl,
      by simp, ?_⟩
    intro he
    rw [if_neg (by rw [he]; exact lt_irrefl s.less)]
    exact fun hc => Tier.noConfusion hc
  · rw [if_neg h]
    refine ⟨⟨fun hf => absurd hf (by simp), ?_⟩, by simp, fun _ => rfl,
      fun _ => fun hc => Tier.noConfusion hc⟩
    intro hcond
    exact absurd ⟨by rw [hmax]; exact hcond.1, hcond.2⟩ h

/-- C6 (amended), witness: evaluated at similarities (1, 0, 0) and
threshold 0.15; the technical hypothesis is discharged concretely. -/
theorem c6_tier_amended_witness :
    (classifySims ⟨1, 0, 0⟩ (3/20)).1 = true
      ∧ (classifySims ⟨1, 0, 0⟩ (3/20)).2 =
          (if (1:ℚ) > 0 then Tier.important else Tier.lessImportant) := by
  have h1 : (classifySims ⟨1, 0, 0⟩ (3/20)).1 = true := by
    simp only [classifySims, max_def]
    norm_num
  exact ⟨h1, (c6_tier_amended ⟨1, 0, 0⟩ (3/20)).2.1 h1⟩

/-- If some batch of the list fails to encode and the batch loop still
returns `ok`, every phrase of the failed batch is in the returned list. -/
theorem batchGo_failed_mem (st : ClassifierSt) (threshold : ℚ) (p : PyStr) :
    ∀ cs : List (List PyStr),
      (∃ c ∈ cs, p ∈ c ∧ ∀ f, st.encBatch c ≠ EncRes.ok f) →
      ∀ l, batchGo st threshold cs = Except.ok l → p ∈ l := by
  intro cs
  induction cs with
  | nil => rintro ⟨c, hc, _⟩ l _; exact absurd hc (List.not_mem_nil c)
  | cons c0 rest ih =>
      rintro ⟨c, hc, hpc, hfail⟩ l hok
      unfold batchGo at hok
      rcases List.mem_cons.mp hc with hceq | hcrest
      · subst hceq
        cases henc : st.encBatch c with
        | ok f => exact absurd henc (hfail f)
        | brokenPipe =>
            rw [henc] at hok
            cases hrest : batchGo st threshold rest with
            | ok r =>
                rw [hrest] at hok
                cases hok
                exact List.mem_append_left _ hpc
            | error e => rw [hrest] at hok; cases hok
        | err => rw [henc] at hok; cases hok
      · cases henc : st.encBatch c0 with
        | ok f =>
            rw [henc] at hok
            cases hrest : batchGo st threshold rest with
            | ok r =>
                rw [hrest] at hok
                cases hok
                exact List.mem_append_right _
                  (ih ⟨c, hcrest, hpc, hfail⟩ r hrest)
            | error e => rw [hrest] at hok; cases hok
        | brokenPipe =>
            rw [henc] at hok
            cases hrest : batchGo st threshold rest with
            | ok r =>
                rw [hrest] at hok
                cases hok
                exact List.mem_append_right _
                  (ih ⟨c, hcrest, hpc, hfail⟩ r hrest)
            | error e => rw [hrest] at hok; cases hok
        | err => rw [henc] at hok; cases hok

/-- C8: with the classifier fully available, an embedding failure fails
open.  If encoding the phrase raises (broken pipe or any other exception),
`is_technical_skill` returns `True`; and if the batch containing a phrase
fails to encode, `batch_classify_skills` still includes every phrase of that
batch (a broken pipe keeps the batch wholesale, any other exception makes
the outer handler return all input skills). -/
theorem c8_fail_open (st : ClassifierSt) (threshold : ℚ) (bs : Nat)
    (skills : List PyStr) (p : PyStr)
    (hav : st.available = true) (hm : st.hasModel = true)
    (hi : st.hasImp = true) (hl : st.hasLess = true) (hn : st.hasNon = true) :
    ((∀ s, st.encOne p ≠ EncRes.ok s) →
      isTechnicalSkill st p threshold = true)
    ∧ (p ∈ skills →
        (∃ c ∈ chunksOf bs skills, p ∈ c ∧ ∀ f, st.encBatch c ≠ EncRes.ok f) →
        p ∈ batchClassify st skills threshold bs) := by
  constructor
  · intro hfail
    unfold isTechnicalSkill
    rw [if_neg (not_not_intro ⟨hav, hm⟩), if_neg (not_not_intro ⟨hi, hl, hn⟩)]
    cases henc : st.encOne p with
    | ok s => exact absurd henc (hfail s)
    | brokenPipe => rfl
    | err => rfl
  · intro hp hex
    unfold batchClassify
    rw [if_neg (not_not_intro ⟨hav, hm⟩), if_neg (not_not_intro ⟨hi, hl, hn⟩)]
    cases hres : batchGo st threshold (chunksOf bs skills) with
    | ok l =>
        show p ∈ orAllSkills (Except.ok l) skills
        exact batchGo_failed_mem st threshold p _ hex l hres
    | error e =>
        show p ∈ orAllSkills (Except.error e) skills
        exact hp

/-- C8, witness state: a fully-available classifier whose embedding provider
always raises a broken pipe. -/
def stFail : ClassifierSt where
  available := true
  hasModel := true
  hasImp := true
  hasLess := true
  hasNon := true
  hasCombined := true
  encOne := fun _ => EncRes.brokenPipe
  encOneC := fun _ => EncRes.brokenPipe
  encBatch := fun _ => EncRes.brokenPipe
  encBatchC := fun _ => EncRes.brokenPipe

/-- C8, witness: with `stFail`, the single-phrase verdict is `True` and the
phrase of the failed batch is in the batch result. -/
theorem c8_fail_open_witness :
    isTechnicalSkill stFail (strToCodes "java") (3/20) = true
      ∧ strToCodes "java" ∈
          batchClassify stFail [strToCodes "java"] (3/20) 500 := by
  have h := c8_fail_open stFail (3/20) 500 [strToCodes "java"]
    (strToCodes "java") rfl rfl rfl rfl rfl
  refine ⟨h.1 ?_, h.2 (List.mem_singleton.mpr rfl) ?_⟩
  · intro s hs
    exact EncRes.noConfusion hs
  · refine ⟨[strToCodes "java"], ?_, List.mem_singleton.mpr rfl, ?_⟩
    · have hch : chunksOf 500 [strToCodes "java"] = [[strToCodes "java"]] :=
        rfl
      rw [hch]
      exact List.mem_singleton.mpr rfl
    · intro f hf
      exact EncRes.noConfusion hf

-- ---------------------------------------------------------------------------
-- Overlap resolver (`collapse_overlapping_skills`) — claim C1
-- ---------------------------------------------------------------------------

theorem pyStrLeB_total : ∀ s t : PyStr, pyStrLeB s t = true ∨ pyStrLeB t s = true := by
  intro s
  induction s with
  | nil => intro t; left; rfl
  | cons a as_ ih =>
      intro t
      match t with
      | [] => right; rfl
      | b :: bs =>
          show (if a < b then true else if b < a then false else pyStrLeB as_ bs) = true
            ∨ (if b < a then true else if a < b then false else pyStrLeB bs as_) = true
          rcases Nat.lt_trichotomy a b with h | h | h
          · left; rw [if_pos h]
          · subst h
            rw [if_neg (lt_irrefl a), if_neg (lt_irrefl a), if_neg (lt_irrefl a),
              if_neg (lt_irrefl a)]
            exact ih bs
          · right; rw [if_pos h]

theorem pyStrLeB_trans : ∀ s t u : PyStr,
    pyStrLeB s t = true → pyStrLeB t u = true → pyStrLeB s u = true := by
  intro s
  induction s with
  | nil => intro t u _ _; rfl
  | cons a as_ ih =>
      intro t u hst htu
      match t, u with
      | [], _ => exact absurd hst (by simp [pyStrLeB])
      | _ :: _, [] => exact absurd htu (by simp [pyStrLeB])
      | b :: bs, c :: cs =>
          show (if a < c then true else if c < a then false else pyStrLeB as_ cs) = true
          have hst2 : (if a < b then true else if b < a then false
              else pyStrLeB as_ bs) = true := hst
          have htu2 : (if b < c then true else if c < b then false
              else pyStrLeB bs cs) = true := htu
          by_cases hab : a < b
          · by_cases hbc : b < c
            · rw [if_pos (Nat.lt_trans hab hbc)]
            · by_cases hcb : c < b
              · rw [if_neg hbc, if_pos hcb] at htu2
                exact absurd htu2 (by simp)
              · have hbc2 : b = c := Nat.le_antisymm (Nat.le_of_not_lt hcb)
                  (Nat.le_of_not_lt hbc)
                subst hbc2
                rw [if_pos hab]
          · by_cases hba : b < a
            · rw [if_neg hab, if_pos hba] at hst2
              exact absurd hst2 (by simp)
            · have hab2 : a = b := Nat.le_antisymm (Nat.le_of_not_lt hba)
                (Nat.le_of_not_lt hab)
              subst hab2
              rw [if_neg (lt_irrefl a), if_neg (lt_irrefl a)] at hst2
              by_cases hac : a < c
              · rw [if_pos hac]
              · by_cases hca : c < a
                · rw [if_neg hac, if_pos hca] at htu2
                  exact absurd htu2 (by simp)
                · rw [if_neg hac, if_neg hca] at htu2 ⊢
                  exact ih bs cs hst2 htu2

/-- One scored candidate of the extraction: `(skill, canonical, weight)`. -/
structure SkillTriple where
  skill : PyStr
  canonical : PyStr
  weight : ℚ
deriving DecidableEq

/-- The sort key of `collapse_overlapping_skills` as a `≤` relation:
`(-weight, -len(skill.split()), skill.lower())` compared lexicographically
(descending weight, then descending word count, then alphabetical). -/
def keyLE (x y : SkillTriple) : Prop :=
  x.weight > y.weight
    ∨ (x.weight = y.weight
        ∧ (wordCount x.skill > wordCount y.skill
            ∨ (wordCount x.skill = wordCount y.skill
                ∧ pyStrLeB (pyLowerS x.skill) (pyLowerS y.skill) = true)))

instance : DecidableRel keyLE := fun x y => by
  unfold keyLE
  infer_instance

instance : IsTotal SkillTriple keyLE where
  total x y := by
    unfold keyLE
    rcases lt_trichotomy x.weight y.weight with h | h | h
    · right; left; exact h
    · rcases Nat.lt_trichotomy (wordCount x.skill) (wordCount y.skill)
        with h2 | h2 | h2
      · right; right; exact ⟨h.symm, Or.inl h2⟩
      · rcases pyStrLeB_total (pyLowerS x.skill) (pyLowerS y.skill) with h3 | h3
        · left; right; exact ⟨h, Or.inr ⟨h2, h3⟩⟩
        · right; right; exact ⟨h.symm, Or.inr ⟨h2.symm, h3⟩⟩
      · left; right; exact ⟨h, Or.inl h2⟩
    · left; left; exact h

instance : IsTrans SkillTriple keyLE where
  trans x y z hxy hyz := by
    unfold keyLE at hxy hyz ⊢
    rcases hxy with h1 | ⟨he1, h1⟩
    · rcases hyz with h2 | ⟨he2, _⟩
      · left; exact lt_trans h2 h1
      · left; rw [← he2]; exact h1
    · rcases hyz with h2 | ⟨he2, h2⟩
      · left; rw [he1]; exact h2
      · right
        refine ⟨he1.trans he2, ?_⟩
        rcases h1 with h1 | ⟨hw1, h1⟩
        · rcases h2 with h2 | ⟨hw2, _⟩
          · left; exact lt_trans h2 h1
          · left; rw [← hw2]; exact h1
        · rcases h2 with h2 | ⟨hw2, h2⟩
          · left; rw [hw1]; exact h2
          · right
            exact ⟨hw1.trans hw2,
              pyStrLeB_trans _ _ _ h1 h2⟩

/-- `sorted(skills, key=lambda x: (-x[2], -len(x[0].split()), x[0].lower()))`
as a stable sort by `keyLE`. -/
def sortSkills (skills : List SkillTriple) : List SkillTriple :=
  List.insertionSort keyLE skills

/-- What the kept-skills loop of `collapse_overlapping_skills` decides for
one incoming candidate: run to the end (keep, subject to the static check),
break because a kept skill is a parent of the incoming one (discard), or
break because the incoming skill is a parent of a kept one (remove that
kept entry, identified by its lower-cased name). -/
inductive ScanAction where
  | keepNone
  | subphrase
  | removeChild (keptLower : PyStr)

/-- The `for kept_skill, _, _ in kept_skills` loop: first hit of either
hierarchy condition breaks.  `skillLower` is `skill.lower().strip()`,
`thisChildrenLower` the lower-cased ontology children of the incoming
skill; `ch` is the ontology's parent-to-children map keyed by lower-cased
stripped names. -/
def scanKept (ch : PyStr → List PyStr) (skillLower : PyStr)
    (thisChildrenLower : List PyStr) : List SkillTriple → ScanAction
  | [] => ScanAction.keepNone
  | k :: rest =>
      if skillLower ∈ (ch (lowerStrip k.skill)).map pyLowerS then
        ScanAction.subphrase
      else if pyLowerS k.skill ∈ thisChildrenLower then
        ScanAction.removeChild (pyLowerS k.skill)
      else scanKept ch skillLower thisChildrenLower rest

/-- The backwards-compatibility check against the static `SKILL_HIERARCHY`
table: the incoming lower-cased skill is listed as a child of some static
parent, and some kept skill contains that parent as a substring. -/
def staticSubphrase (kept : List SkillTriple) (skillLower : PyStr) : Bool :=
  SKILL_HIERARCHY.any fun pc =>
    decide (skillLower ∈ pc.2)
      && kept.any fun k => pySubstr pc.1 (pyLowerS k.skill)

/-- One iteration of the walk of `collapse_overlapping_skills` over the
sorted candidates. -/
def collapseStep (ch : PyStr → List PyStr) (kept : List SkillTriple)
    (incoming : SkillTriple) : List SkillTriple :=
  let skillLower := lowerStrip incoming.skill
  let thisChildrenLower := (ch (lowerStrip incoming.skill)).map pyLowerS
  match scanKept ch skillLower thisChildrenLower kept with
  | ScanAction.subphrase => kept
  | ScanAction.removeChild kl =>
      let kept2 := kept.filter fun e => decide (pyLowerS e.skill ≠ kl)
      if staticSubphrase kept2 skillLower then kept2 else kept2 ++ [incoming]
  | ScanAction.keepNone =>
      if staticSubphrase kept skillLower then kept else kept ++ [incoming]

/-- The walk over the sorted list, accumulating `kept_skills`. -/
def walkSkills (ch : PyStr → List PyStr) (l : List SkillTriple) :
    List SkillTriple :=
  l.foldl (collapseStep ch) []

/-- `collapse_overlapping_skills`: empty input short-circuits, otherwise
sort by `(-weight, -wordCount, lower-cased name)` and walk. -/
def collapse (ch : PyStr → List PyStr) (skills : List SkillTriple) :
    List SkillTriple :=
  if skills = [] then [] else walkSkills ch (sortSkills skills)

theorem staticSubphrase_nil (s : PyStr) : staticSubphrase [] s = false := by
  unfold staticSubphrase
  simp

/-- The first candidate of the walk is always kept. -/
theorem collapseStep_nil (ch : PyStr → List PyStr) (x : SkillTriple) :
    collapseStep ch [] x = [x] := by
  simp only [collapseStep, scanKept, staticSubphrase_nil]
  rfl

/-- The walk on a two-candidate list where the second is a listed child of
the first (checked the way the first loop condition checks it) keeps only
the first. -/
theorem walk_parent_first (ch : PyStr → List PyStr) (P C : SkillTriple)
    (hchild : lowerStrip C.skill ∈ (ch (lowerStrip P.skill)).map pyLowerS) :
    walkSkills ch [P, C] = [P] := by
  unfold walkSkills
  show collapseStep ch (collapseStep ch [] P) C = [P]
  rw [collapseStep_nil]
  simp only [collapseStep, scanKept]
  rw [if_pos hchild]

/-- The walk on a two-candidate list where the first is a listed child of
the second either discards the second (when the second is also a child of
the first) or replaces the first by the second; both ways exactly one
survives. -/
theorem walk_child_first (ch : PyStr → List PyStr) (C P : SkillTriple)
    (hchild : pyLowerS C.skill ∈ (ch (lowerStrip P.skill)).map pyLowerS) :
    walkSkills ch [C, P] = [C] ∨ walkSkills ch [C, P] = [P] := by
  unfold walkSkills
  show (collapseStep ch (collapseStep ch [] C) P = [C]
      ∨ collapseStep ch (collapseStep ch [] C) P = [P])
  rw [collapseStep_nil]
  simp only [collapseStep, scanKept]
  by_cases h1 : lowerStrip P.skill ∈ (ch (lowerStrip C.skill)).map pyLowerS
  · left
    rw [if_pos h1]
  · right
    rw [if_neg h1, if_pos hchild]
    have hk2 : ([C].filter fun e =>
        decide (pyLowerS e.skill ≠ pyLowerS C.skill)) = [] := by
      simp [List.filter]
    simp only [hk2, staticSubphrase_nil]
    rfl

/-- C1, counterexample ontology: "p" has the two children "alpha" and
"beta"; no other entries. -/
def exChildren (s : PyStr) : List PyStr :=
  if s = strToCodes "p" then [strToCodes "alpha", strToCodes "beta"] else []

/-- C1, counterexample input: the parent "p" and both of its children, with
weights that sort both children before the parent. -/
def exCandidates : List SkillTriple :=
  [⟨strToCodes "alpha", strToCodes "alpha", 3⟩,
    ⟨strToCodes "beta", strToCodes "beta", 2⟩,
    ⟨strToCodes "p", strToCodes "p", 1⟩]

/-- C1, counterexample: on `exCandidates` the resolver output contains both
the parent "p" and its listed child "beta" — when "p" is reached, the scan
removes the first kept child "alpha" and breaks, so "beta" survives next to
its parent, violating the claimed "exactly one of the two". -/
theorem c1_collapse_counterexample :
    (collapse exChildren exCandidates).map SkillTriple.skill
        = [strToCodes "beta", strToCodes "p"]
      ∧ pyLowerS (strToCodes "beta")
          ∈ (exChildren (lowerStrip (strToCodes "p"))).map pyLowerS := by
  constructor
  · decide
  · decide

/-- C1 (amended): the resolver walks the input sorted by descending weight,
then descending word count, then alphabetically on the lower-cased name
(the walked list is `keyLE`-sorted and a permutation of the input); and for
an input consisting of exactly a parent and one of its listed children
(distinct lower-cased names, the child's name without surrounding
whitespace) the output is exactly one of the two: the parent alone, or the
child alone.  With three or more candidates the removal scan stops at the
first kept child, so a second kept child can survive next to the parent. -/
theorem c1_collapse_amended (ch : PyStr → List PyStr)
    (skills : List SkillTriple) (P C : SkillTriple)
    (hstrip : lowerStrip C.skill = pyLowerS C.skill)
    (hchild : pyLowerS C.skill ∈ (ch (lowerStrip P.skill)).map pyLowerS) :
    (sortSkills skills).Sorted keyLE
    ∧ (sortSkills skills).Perm skills
    ∧ (collapse ch [P, C] = [P] ∨ collapse ch [P, C] = [C]) := by
  refine ⟨List.sorted_insertionSort keyLE skills,
    List.perm_insertionSort keyLE skills, ?_⟩
  unfold collapse
  rw [if_neg (by simp)]
  have hsort : sortSkills [P, C] = [P, C] ∨ sortSkills [P, C] = [C, P] := by
    unfold sortSkills
    simp only [List.insertionSort, List.orderedInsert]
    by_cases h : keyLE P C
    · left; rw [if_pos h]
    · right; rw [if_neg h]
  rcases hsort with hs | hs
  · rw [hs]
    left
    exact walk_parent_first ch P C (hstrip ▸ hchild)
  · rw [hs]
    rcases walk_child_first ch C P hchild with h | h
    · right; exact h
    · left; exact h

/-- C1 (amended), witness: applied to the ontology `exChildren` with parent
"p" and child "alpha" as the only two candidates. -/
theorem c1_collapse_amended_witness :
    (collapse exChildren
        [⟨strToCodes "p", strToCodes "p", 1⟩,
          ⟨strToCodes "alpha", strToCodes "alpha", 3⟩]
      = [⟨strToCodes "p", strToCodes "p", 1⟩])
    ∨ (collapse exChildren
        [⟨strToCodes "p", strToCodes "p", 1⟩,
          ⟨strToCodes "alpha", strToCodes "alpha", 3⟩]
      = [⟨strToCodes "alpha", strToCodes "alpha", 3⟩]) :=
  (c1_collapse_amended exChildren []
    ⟨strToCodes "p", strToCodes "p", 1⟩
    ⟨strToCodes "alpha", strToCodes "alpha", 3⟩
    (by decide) (by decide)).2.2

-- ---------------------------------------------------------------------------
-- Custom keywords loader (`generate_variations`) — claim C10
-- ---------------------------------------------------------------------------

theorem pyNormalize_capitalize (s : PyStr) :
    pyNormalize (pyCapitalizeS s) = pyNormalize s := by
  match s with
  | [] => rfl
  | c :: rest =>
      show pyNormalize (pyUpperC c :: pyLowerS rest) = pyNormalize (c :: rest)
      unfold pyNormalize pyLowerS
      simp only [List.map_cons]
      rw [pyLowerC_upper]
      have hrest : List.map pyLowerC (List.map pyLowerC rest)
          = List.map pyLowerC rest := pyLowerS_idem rest
      rw [hrest]

theorem pyNormalize_join (d : Nat) (hd : isLowerAlnum (pyLowerC d) = false) :
    ∀ s : PyStr, pyNormalize (pyJoinC d s) = pyNormalize s
  | [] => rfl
  | [_] => rfl
  | c1 :: c2 :: rest => by
      show pyNormalize (c1 :: d :: pyJoinC d (c2 :: rest))
        = pyNormalize (c1 :: c2 :: rest)
      have ih := pyNormalize_join d hd (c2 :: rest)
      unfold pyNormalize pyLowerS at ih ⊢
      simp only [List.map_cons, List.filter_cons, hd, ih]
      simp

theorem pyNormalize_replace (a b : Nat)
    (ha : isLowerAlnum (pyLowerC a) = false)
    (hb : isLowerAlnum (pyLowerC b) = false) (s : PyStr) :
    pyNormalize (pyReplaceC a b s) = pyNormalize s := by
  induction s with
  | nil => rfl
  | cons c rest ih =>
      show pyNormalize ((if c = a then b else c) :: pyReplaceC a b rest)
        = pyNormalize (c :: rest)
      unfold pyNormalize pyLowerS at ih ⊢
      simp only [List.map_cons, List.filter_cons]
      by_cases hc : c = a
      · rw [if_pos hc, hb, hc, ha]
        exact ih
      · rw [if_neg hc, ih]

theorem pyNormalize_title_go (s : List Nat) :
    ∀ prev : Bool, pyNormalize (pyTitleGo prev s) = pyNormalize s := by
  induction s with
  | nil => intro prev; rfl
  | cons c rest ih =>
      intro prev
      unfold pyTitleGo
      by_cases hc : isLowerC c = true ∨ isUpperC c = true
      · rw [if_pos hc]
        show pyNormalize ((if prev then pyLowerC c else pyUpperC c)
          :: pyTitleGo true rest) = pyNormalize (c :: rest)
        unfold pyNormalize pyLowerS
        simp only [List.map_cons, List.filter_cons]
        have hih := ih true
        unfold pyNormalize pyLowerS at hih
        rw [hih]
        by_cases hp : prev
        · rw [if_pos hp, pyLowerC_idem]
        · rw [if_neg hp, pyLowerC_upper]
      · rw [if_neg hc]
        show pyNormalize (c :: pyTitleGo false rest) = pyNormalize (c :: rest)
        unfold pyNormalize pyLowerS
        simp only [List.map_cons, List.filter_cons]
        have hih := ih false
        unfold pyNormalize pyLowerS at hih
        rw [hih]

theorem pyNormalize_title (s : PyStr) :
    pyNormalize (pyTitleS s) = pyNormalize s :=
  pyNormalize_title_go s false

theorem isWS_not_alnum {c : Nat} (h : isWS c = true) :
    isLowerAlnum (pyLowerC c) = false := by
  unfold isWS at h
  unfold isLowerAlnum pyLowerC
  simp only [decide_eq_true_eq] at h
  split_ifs with hif
  · omega
  · simp only [decide_eq_false_iff_not]
    omega

theorem pyNormalize_dropWhileWS (l : List Nat) :
    pyNormalize (l.dropWhile isWS) = pyNormalize l := by
  induction l with
  | nil => rfl
  | cons c rest ih =>
      rw [List.dropWhile_cons]
      by_cases hc : isWS c = true
      · rw [if_pos hc, ih]
        unfold pyNormalize pyLowerS
        simp [List.map_cons, List.filter_cons, isWS_not_alnum hc]
      · rw [if_neg hc]

theorem pyNormalize_reverse (l : List Nat) :
    pyNormalize l.reverse = (pyNormalize l).reverse := by
  unfold pyNormalize pyLowerS
  rw [List.map_reverse, List.filter_reverse]

theorem pyNormalize_strip (s : PyStr) :
    pyNormalize (pyStripS s) = pyNormalize s := by
  unfold pyStripS
  rw [pyNormalize_reverse, pyNormalize_dropWhileWS, pyNormalize_reverse,
    List.reverse_reverse, pyNormalize_dropWhileWS]

/-- The lower-cased/stripped lookup key normalizes like the raw string. -/
theorem pyNormalize_lowerStrip (s : PyStr) :
    pyNormalize (lowerStrip s) = pyNormalize s := by
  unfold lowerStrip
  rw [pyNormalize_strip, pyNormalize_lower]

/-- The additions `generate_variations` makes to its `variations` set, in
program order: the base and its case variations, the capitalized form for
non-trivial bases, letter-by-letter dotted/dashed/underscored forms for
short all-upper bases, and hyphen/underscore-joined forms for multi-word
bases (the final `sorted(list(...))` is applied by `generate_variations`). -/
def buildVariations (base : PyStr) : List PyStr :=
  [base, pyLowerS base, pyUpperS base]
  ++ (if 1 < base.length then [pyCapitalizeS base] else [])
  ++ (if pyIsUpperS base = true ∧ base.length ≤ 10 ∧ 1 < base.length then
        [pyJoinC 46 base, pyLowerS (pyJoinC 46 base),
          pyJoinC 45 base, pyLowerS (pyJoinC 45 base),
          pyJoinC 95 base, pyLowerS (pyJoinC 95 base)]
      else [])
  ++ (if 32 ∈ base then
        [base, pyLowerS base, pyUpperS base,
          pyReplaceC 32 45 base, pyLowerS (pyReplaceC 32 45 base),
          pyUpperS (pyReplaceC 32 45 base),
          pyReplaceC 32 95 base, pyLowerS (pyReplaceC 32 95 base),
          pyUpperS (pyReplaceC 32 95 base)]
      else [])

/-- `generate_variations`: the set of variations, deduplicated and sorted. -/
def generate_variations (base : PyStr) : List PyStr :=
  List.insertionSort (fun a b => pyStrLeB a b = true)
    (buildVariations base).dedup

/-- `get_custom_keywords_normalized_set`: the normalized forms
`normalize_func(variation.lower())` of every variation of every keyword. -/
def customKeywordsNormalizedSet (keywords : List (PyStr × List PyStr)) :
    List PyStr :=
  keywords.flatMap fun kw => kw.2.map fun v => pyNormalize (pyLowerS v)

theorem mem_generate_variations (base v : PyStr) :
    v ∈ generate_variations base ↔ v ∈ buildVariations base := by
  unfold generate_variations
  rw [(List.perm_insertionSort (fun a b => pyStrLeB a b = true)
    (buildVariations base).dedup).mem_iff]
  exact List.mem_dedup

theorem buildVariations_normalize (base : PyStr) :
    ∀ v ∈ buildVariations base, pyNormalize v = pyNormalize base := by
  intro v hv
  unfold buildVariations at hv
  simp only [List.mem_append, List.mem_cons, List.not_mem_nil, or_false] at hv
  have hjoin : ∀ d : Nat, isLowerAlnum (pyLowerC d) = false →
      (v = pyJoinC d base ∨ v = pyLowerS (pyJoinC d base)) →
      pyNormalize v = pyNormalize base := by
    rintro d hd (rfl | rfl)
    · exact pyNormalize_join d hd base
    · rw [pyNormalize_lower]
      exact pyNormalize_join d hd base
  rcases hv with (((rfl | rfl | rfl) | hv) | hv) | hv
  · rfl
  · exact pyNormalize_lower base
  · exact pyNormalize_upper base
  · by_cases hc : 1 < base.length
    · rw [if_pos hc] at hv
      rcases List.mem_singleton.mp hv with rfl
      exact pyNormalize_capitalize base
    · rw [if_neg hc] at hv
      exact absurd hv (List.not_mem_nil v)
  · by_cases hc : pyIsUpperS base = true ∧ base.length ≤ 10 ∧ 1 < base.length
    case neg =>
      rw [if_neg hc] at hv
      exact absurd hv (List.not_mem_nil v)
    case pos =>
    rw [if_pos hc] at hv
    simp only [List.mem_cons, List.not_mem_nil, or_false] at hv
    rcases hv with hv | hv | hv | hv | hv | hv
    · exact hjoin 46 (by decide) (Or.inl hv)
    · exact hjoin 46 (by decide) (Or.inr hv)
    · exact hjoin 45 (by decide) (Or.inl hv)
    · exact hjoin 45 (by decide) (Or.inr hv)
    · exact hjoin 95 (by decide) (Or.inl hv)
    · exact hjoin 95 (by decide) (Or.inr hv)
  · by_cases hc : 32 ∈ base
    case neg =>
      rw [if_neg hc] at hv
      exact absurd hv (List.not_mem_nil v)
    case pos =>
    rw [if_pos hc] at hv
    simp only [List.mem_cons, List.not_mem_nil, or_false] at hv
    have hrep : ∀ b2 : Nat, isLowerAlnum (pyLowerC b2) = false →
        pyNormalize (pyReplaceC 32 b2 base) = pyNormalize base :=
      fun b2 hb2 => pyNormalize_replace 32 b2 (by decide) hb2 base
    rcases hv with hv | hv | hv | hv | hv | hv | hv | hv | hv
    · subst hv; rfl
    · subst hv; exact pyNormalize_lower base
    · subst hv; exact pyNormalize_upper base
    · subst hv; exact hrep 45 (by decide)
    · subst hv; rw [pyNormalize_lower]; exact hrep 45 (by decide)
    · subst hv; rw [pyNormalize_upper]; exact hrep 45 (by decide)
    · subst hv; exact hrep 95 (by decide)
    · subst hv; rw [pyNormalize_lower]; exact hrep 95 (by decide)
    · subst hv; rw [pyNormalize_upper]; exact hrep 95 (by decide)

/-- C10: the variation list of `generate_variations(base)` contains the base
itself; every generated variation has the same normalized form as the base;
and consequently the normalized-membership set built by
`get_custom_keywords_normalized_set` from the generated variations of a base
is exactly the singleton of the base's normalized form. -/
theorem c10_generate_variations (base : PyStr) :
    base ∈ generate_variations base
    ∧ (∀ v ∈ generate_variations base, pyNormalize v = pyNormalize base)
    ∧ (∀ x : PyStr,
        x ∈ customKeywordsNormalizedSet [(base, generate_variations base)] ↔
          x = pyNormalize base) := by
  have hmem : base ∈ generate_variations base := by
    rw [mem_generate_variations]
    unfold buildVariations
    simp
  have hall : ∀ v ∈ generate_variations base,
      pyNormalize v = pyNormalize base := by
    intro v hv
    exact buildVariations_normalize base v
      ((mem_generate_variations base v).mp hv)
  refine ⟨hmem, hall, ?_⟩
  intro x
  unfold customKeywordsNormalizedSet
  simp only [List.flatMap_cons, List.flatMap_nil, List.append_nil,
    List.mem_map]
  constructor
  · rintro ⟨v, hv, rfl⟩
    rw [pyNormalize_lower]
    exact hall v hv
  · rintro rfl
    exact ⟨base, hmem, by rw [pyNormalize_lower]⟩

/-- C10, witness: for the base "RAG", membership and the normalized forms of
two concrete variations evaluated via the theorem. -/
theorem c10_generate_variations_witness :
    strToCodes "RAG" ∈ generate_variations (strToCodes "RAG")
      ∧ pyNormalize (strToCodes "RAG")
          ∈ customKeywordsNormalizedSet
            [(strToCodes "RAG", generate_variations (strToCodes "RAG"))] :=
  ⟨(c10_generate_variations (strToCodes "RAG")).1,
    ((c10_generate_variations (strToCodes "RAG")).2.2
      (pyNormalize (strToCodes "RAG"))).mpr rfl⟩

-- ---------------------------------------------------------------------------
-- Extraction (`extract_skills_with_phrasematcher`) — claims C2 and C5
-- ---------------------------------------------------------------------------

/-- One entry of `matched_skills_data`: a unique matched phrase with its
occurrence count and whether `has_skill_context` accepted its first span
(the latter depends on the spaCy parse and is an oracle here). -/
structure Candidate where
  text : PyStr
  frequency : Nat
  hasContext : Bool

/-- The loaded `SkillsDatabase` as the extraction sees it: the custom
override registry's normalized set, the ontology's weight and
parent-to-children lookups (keyed by lower-cased stripped names), the
CSV-derived `get_canonical_skill` lookup, the four rule-based filters used
when the classifier is unavailable, and the classifier state. -/
structure SkillsDB where
  customNormalized : List PyStr
  ontologyWeight : PyStr → Option ℚ
  ontologyChildren : PyStr → List PyStr
  canonicalSkill : PyStr → Option PyStr
  validType : PyStr → Bool
  specificEnough : PyStr → Bool
  garbage : PyStr → Bool
  lowPriority : PyStr → Bool
  classifier : ClassifierSt

/-- `SkillsDatabase.is_custom_keyword`: normalized membership in the custom
override registry. -/
def isCustomKeyword (db : SkillsDB) (skill : PyStr) : Bool :=
  decide (pyNormalize (pyLowerS skill) ∈ db.customNormalized)

/-- `SkillsDatabase._get_canonical`: direct `CANONICAL_MAP` lookup of the
lower-cased stripped form, then a normalized-form scan of the same table,
else the normalized form itself. -/
def getCanonical (skill : PyStr) : PyStr :=
  let skillLower := lowerStrip skill
  match CANONICAL_MAP.find? (fun p => decide (p.1 = skillLower)) with
  | some p => p.2
  | none =>
      let normalized := pyNormalize skillLower
      match CANONICAL_MAP.find? (fun p => decide (pyNormalize p.1 = normalized)) with
      | some p => p.2
      | none => normalized

/-- The custom-keyword test of the extraction's first pass: the three
`is_custom_keyword` calls (text, lower, title) and the direct normalized
fallback. -/
def isCustomPass (db : SkillsDB) (text : PyStr) : Bool :=
  isCustomKeyword db text
    || isCustomKeyword db (pyLowerS text)
    || isCustomKeyword db (pyTitleS text)
    || decide (pyNormalize (pyLowerS text) ∈ db.customNormalized)

/-- The second pass of `extract_skills_with_phrasematcher` for one unique
candidate: the custom-override test, the batch-classification verdict, the
context filter, the rule-based gates of the degraded mode, canonicalization,
the zero-weight fallback and the frequency boost.  `none` models
`continue`. -/
def processCand (db : SkillsDB) (useContextFilter : Bool)
    (customSet techSet : List PyStr) (c : Candidate) : Option SkillTriple :=
  let matchedText := c.text
  let matchedLower := pyLowerS c.text
  let isCustom : Bool :=
    decide (matchedText ∈ customSet) || decide (matchedLower ∈ customSet)
      || isCustomKeyword db matchedText || isCustomKeyword db matchedLower
      || isCustomKeyword db (pyTitleS matchedText)
      || decide (pyNormalize matchedLower ∈ db.customNormalized)
  let isTechnical : Bool :=
    if db.classifier.available then
      decide (matchedText ∈ techSet)
        || decide (matchedLower ∈ techSet.map pyLowerS)
    else false
  if db.classifier.available && !isCustom && !isTechnical then none
  else if useContextFilter && !isCustom && !c.hasContext && !isTechnical then
    none
  else if !db.classifier.available && !isCustom
      && !(db.validType matchedText) then none
  else if !db.classifier.available && !isCustom
      && !(db.specificEnough matchedText) then none
  else if !db.classifier.available && !isCustom
      && db.garbage matchedText then none
  else if !db.classifier.available && !isCustom
      && db.lowPriority matchedText then none
  else
    let canonical := getCanonical matchedLower
    let wc : Option (PyStr × ℚ) :=
      if canonical = [] then
        some (matchedText,
          if db.classifier.available && isTechnical then 2 else 1)
      else
        let w := ontGetWeight db.ontologyWeight matchedText
        if w = 0 then
          if db.classifier.available && isTechnical then some (canonical, 1)
          else none
        else some (canonical, w)
    match wc with
    | none => none
    | some cw =>
        let skillName := (db.canonicalSkill matchedText).getD matchedText
        some ⟨skillName, cw.1, boostedWeight cw.2 c.frequency⟩

/-- `extract_skills_with_phrasematcher` from `matched_skills_data` on: when
the classifier is available, the first pass sets custom candidates aside
(`custom_keywords_set` holds their text and lower-cased text) and batch
classifies the rest at threshold 0.10 and batch size 500; the second pass
processes every candidate; the overlap resolver collapses the result. -/
def extractSkills (db : SkillsDB) (useContextFilter : Bool)
    (cands : List Candidate) : List SkillTriple :=
  let customSet :=
    if db.classifier.available then
      (cands.filter fun c => isCustomPass db c.text).flatMap
        fun c => [c.text, pyLowerS c.text]
    else []
  let toClassify :=
    if db.classifier.available then
      (cands.filter fun c => !isCustomPass db c.text).map Candidate.text
    else []
  let techSet :=
    if db.classifier.available then
      batchClassify db.classifier toClassify (1/10) 500
    else []
  collapse db.ontologyChildren
    (cands.filterMap (processCand db useContextFilter customSet techSet))

theorem collapse_singleton (ch : PyStr → List PyStr) (x : SkillTriple) :
    collapse ch [x] = [x] := by
  unfold collapse
  rw [if_neg (by simp)]
  show walkSkills ch (sortSkills [x]) = [x]
  have hs : sortSkills [x] = [x] := rfl
  rw [hs]
  show collapseStep ch [] x = [x]
  exact collapseStep_nil ch x

/-- Singleton extraction of an unknown-but-technical term: classifier
available, not a custom override, batch-classified as technical, absent
from `CANONICAL_MAP` directly and by normalized form, nonempty normalized
form, no ontology weight, static weight 0, no CSV canonical entry.  The
term is emitted with its normalized form as canonical and base weight 1
(then frequency-boosted). -/
theorem extractSkills_unknown_technical (db : SkillsDB) (t : PyStr)
    (f : Nat) (ctx : Bool)
    (hav : db.classifier.available = true)
    (hcust : pyNormalize (pyLowerS t) ∉ db.customNormalized)
    (htech : t ∈ batchClassify db.classifier [t] (1/10) 500)
    (hmap1 : ∀ p ∈ CANONICAL_MAP, ¬(p.1 = lowerStrip (pyLowerS t)))
    (hmap2 : ∀ p ∈ CANONICAL_MAP,
      ¬(pyNormalize p.1 = pyNormalize (lowerStrip (pyLowerS t))))
    (hnorm : ¬(pyNormalize (lowerStrip (pyLowerS t)) = []))
    (hont : db.ontologyWeight (lowerStrip t) = none)
    (hgsw : getSkillWeight t = 0)
    (hcs : db.canonicalSkill t = none) :
    extractSkills db true [⟨t, f, ctx⟩]
      = [⟨t, pyNormalize t, boostedWeight 1 f⟩] := by
  have hcustN : pyNormalize t ∉ db.customNormalized := by
    rwa [pyNormalize_lower] at hcust
  have hck : ∀ s : PyStr, pyNormalize (pyLowerS s) = pyNormalize t →
      isCustomKeyword db s = false := by
    intro s hs
    unfold isCustomKeyword
    rw [hs]
    exact decide_eq_false hcustN
  have h1 : isCustomKeyword db t = false := hck t (pyNormalize_lower t)
  have h2 : isCustomKeyword db (pyLowerS t) = false := by
    apply hck
    rw [pyLowerS_idem]
    exact pyNormalize_lower t
  have h3 : isCustomKeyword db (pyTitleS t) = false := by
    apply hck
    rw [pyNormalize_lower]
    exact pyNormalize_title t
  have h4 : decide (pyNormalize (pyLowerS t) ∈ db.customNormalized) = false :=
    decide_eq_false hcust
  have hpass : isCustomPass db t = false := by
    unfold isCustomPass
    rw [h1, h2, h3, h4]
    rfl
  have hcanon : getCanonical (pyLowerS t)
      = pyNormalize (lowerStrip (pyLowerS t)) := by
    simp only [getCanonical]
    rw [List.find?_eq_none.mpr (fun p hp => by simpa using hmap1 p hp)]
    rw [List.find?_eq_none.mpr (fun p hp => by simpa using hmap2 p hp)]
  have hw0 : ontGetWeight db.ontologyWeight t = 0 := by
    unfold ontGetWeight
    rw [hont, hgsw]
    norm_num
  have hfix : pyNormalize (lowerStrip (pyLowerS t)) = pyNormalize t := by
    rw [pyNormalize_lowerStrip, pyNormalize_lower]
  simp only [extractSkills]
  rw [if_pos hav, if_pos hav, if_pos hav]
  have hfilter1 : List.filter (fun c => isCustomPass db c.text)
      [(⟨t, f, ctx⟩ : Candidate)] = [] := by
    simp [List.filter, hpass]
  have hfilter2 : List.filter (fun c => !isCustomPass db c.text)
      [(⟨t, f, ctx⟩ : Candidate)] = [⟨t, f, ctx⟩] := by
    simp [List.filter, hpass]
  rw [hfilter1, hfilter2]
  simp only [List.flatMap_nil, List.map_cons, List.map_nil]
  have htech2 : decide
      (t ∈ batchClassify db.classifier [t] (1/10) 500) = true :=
    decide_eq_true htech
  have hproc : processCand db true []
      (batchClassify db.classifier [t] (1/10) 500) ⟨t, f, ctx⟩
      = some ⟨t, pyNormalize (lowerStrip (pyLowerS t)), boostedWeight 1 f⟩ := by
    unfold processCand
    simp only [h1, h2, h3, h4, hav, htech2, List.not_mem_nil, decide_False,
      Bool.false_or, Bool.or_false, Bool.true_or, Bool.not_false,
      Bool.not_true, Bool.true_and, Bool.and_true, Bool.false_and,
      Bool.and_false, if_true, if_false, decide_eq_true_eq]
    rw [if_neg (by simp)]
    rw [if_neg (by simp)]
    rw [hcanon]
    rw [if_neg hnorm, hw0]
    rw [if_pos rfl]
    rw [hcs]
    rfl
  rw [show List.filterMap
      (processCand db true [] (batchClassify db.classifier [t] (1/10) 500))
      [(⟨t, f, ctx⟩ : Candidate)]
    = [(⟨t, pyNormalize (lowerStrip (pyLowerS t)), boostedWeight 1 f⟩ :
        SkillTriple)] by
    rw [List.filterMap_cons, hproc]
    rfl]
  rw [collapse_singleton]
  rw [hfix]

/-- With the always-technical provider `stOk`, a singleton batch keeps its
phrase. -/
theorem stOk_batch_mem (t : PyStr) :
    t ∈ batchClassify stOk [t] (1/10) 500 := by
  have hform : (classifySims (⟨1, 0, 0⟩ : Sims) (1/10)).1 = true := by
    simp only [classifySims, max_def]
    norm_num
  unfold batchClassify
  rw [if_neg (not_not_intro ⟨rfl, rfl⟩), if_neg (not_not_intro ⟨rfl, rfl, rfl⟩)]
  rw [batchGo_all_ok stOk (1/10) (fun _ => ⟨1, 0, 0⟩) (fun _ => rfl)]
  show t ∈ List.filter
    (fun p => (classifySims ((fun _ => (⟨1, 0, 0⟩ : Sims)) p) (1/10)).1)
    (chunksOf 500 [t]).flatten
  rw [chunksOf_join 500 (by norm_num) [t]]
  simp only [List.filter_cons, List.filter_nil]
  rw [if_pos hform]
  exact List.mem_singleton.mpr rfl

/-- A loaded database with no custom keywords, no ontology data, no CSV
canonical groups and the always-technical classifier `stOk`. -/
def dbFlum : SkillsDB where
  customNormalized := []
  ontologyWeight := fun _ => none
  ontologyChildren := fun _ => []
  canonicalSkill := fun _ => none
  validType := fun _ => true
  specificEnough := fun _ => true
  garbage := fun _ => false
  lowPriority := fun _ => false
  classifier := stOk

/-- C5, counterexample: the unknown term "flum" (no vocabulary entry, no
ontology weight, static weight 0) is scored Important-tier technical by the
classifier, yet the extraction emits it with weight 1.0 — the claimed
weight-2.0 fallback does not fire (it would only for a surface with no
alphanumeric characters). -/
theorem c5_unknown_term_counterexample :
    extractSkills dbFlum true [⟨strToCodes "flum", 1, true⟩]
        = [⟨strToCodes "flum", pyNormalize (strToCodes "flum"),
            boostedWeight 1 1⟩]
      ∧ pyNormalize (strToCodes "flum") = strToCodes "flum"
      ∧ boostedWeight 1 1 = 1
      ∧ (1 : ℚ) ≠ 2
      ∧ (classifySims ⟨1, 0, 0⟩ (1/10)).2 = Tier.important := by
  refine ⟨?_, by decide, by norm_num [boostedWeight, frequencyBoost],
    by norm_num, ?_⟩
  · exact extractSkills_unknown_technical dbFlum (strToCodes "flum") 1 true
      rfl (by decide) (stOk_batch_mem (strToCodes "flum"))
      (by decide) (by decide) (by decide) rfl (by decide) rfl
  · simp only [classifySims, max_def]
    norm_num

/-- C5 (amended): a matched term with no vocabulary entry (absent from the
canonical alias table directly and by normalized form, no ontology weight,
static weight 0, no CSV canonical group) that the Semantic Classifier marks
technical is still emitted, with canonical form equal to its **normalized**
surface text and base weight **1.0** (the zero-weight fallback), boosted by
frequency; the weight-2.0 surface-text fallback fires only when the
canonical lookup returns an empty string (a surface with no alphanumeric
characters). -/
theorem c5_unknown_term_amended (db : SkillsDB) (t : PyStr)
    (f : Nat) (ctx : Bool)
    (hav : db.classifier.available = true)
    (hcust : pyNormalize (pyLowerS t) ∉ db.customNormalized)
    (htech : t ∈ batchClassify db.classifier [t] (1/10) 500)
    (hmap1 : ∀ p ∈ CANONICAL_MAP, ¬(p.1 = lowerStrip (pyLowerS t)))
    (hmap2 : ∀ p ∈ CANONICAL_MAP,
      ¬(pyNormalize p.1 = pyNormalize (lowerStrip (pyLowerS t))))
    (hnorm : ¬(pyNormalize (lowerStrip (pyLowerS t)) = []))
    (hont : db.ontologyWeight (lowerStrip t) = none)
    (hgsw : getSkillWeight t = 0)
    (hcs : db.canonicalSkill t = none) :
    extractSkills db true [⟨t, f, ctx⟩]
      = [⟨t, pyNormalize t, boostedWeight 1 f⟩] :=
  extractSkills_unknown_technical db t f ctx hav hcust htech hmap1 hmap2
    hnorm hont hgsw hcs

/-- C5 (amended), witness: applied to the term "flum" with frequency 1. -/
theorem c5_unknown_term_amended_witness :
    extractSkills dbFlum true [⟨strToCodes "flum", 1, true⟩]
      = [⟨strToCodes "flum", pyNormalize (strToCodes "flum"),
          boostedWeight 1 1⟩] :=
  c5_unknown_term_amended dbFlum (strToCodes "flum") 1 true rfl (by decide)
    (stOk_batch_mem (strToCodes "flum")) (by decide) (by decide) (by decide)
    rfl (by decide) rfl

/-- C2, failing database: the custom override registry holds exactly the
normalized form of "zzzqx"; the ontology and CSV canonical groups are
empty; the classifier is fully available. -/
def dbBug : SkillsDB where
  customNormalized := [pyNormalize (pyLowerS (strToCodes "zzzqx"))]
  ontologyWeight := fun _ => none
  ontologyChildren := fun _ => []
  canonicalSkill := fun _ => none
  validType := fun _ => true
  specificEnough := fun _ => true
  garbage := fun _ => false
  lowPriority := fun _ => false
  classifier := stOk

/-- C2: the candidate "zzzqx" is a registered custom override (so the
claim, the spec and the code's own comments say it is always emitted), yet
the extraction output is empty: the custom keyword is excluded from batch
classification, so `is_technical` is `False`, its weight resolves to 0, and
the final zero-weight check drops it. -/
theorem c2_custom_override_dropped :
    isCustomKeyword dbBug (strToCodes "zzzqx") = true
      ∧ extractSkills dbBug true [⟨strToCodes "zzzqx", 1, true⟩] = [] := by
  constructor
  · decide
  · decide
